import Mathlib

/-!
Verification of the Multi-Strategy Reasoning Engine (agents/react_agent.py,
agents/cot_agent.py, agents/tot_agent.py, infra/tool_registry.py,
tools/base.py).

Shallow embedding conventions:
* Python `str` values are modelled as `List Char`; Python string methods
  (`strip`, `split`, `find`, `rfind`, `startswith`, `in`, slicing) are
  embedded as explicit functions on `List Char` below.
* Values produced by `json.loads` are modelled by the inductive `JValue`.
  `json.loads` itself is an external library call; each parsing site takes
  an abstract decoder argument (`ObjDecoder` / `ArrDecoder`).  A strict
  JSON parse of a text whose first character is `{` yields a dict and one
  whose first character is `[` yields a list, so the decoders return
  `Option JObj` respectively `Option (List JValue)`; `none` models a
  raised `json.JSONDecodeError` (caught by the surrounding `except`).
* A raised Python exception is modelled as the error branch of `Except`
  carrying an `ExcInfo` (exception class name and message).
* The generation provider (`model.generate`) is modelled as a stream
  indexed by the chronological call number: the control flow of every
  strategy depends only on the texts the provider returns, never on the
  prompt it was sent, so indexing by call number loses no generality.
-/

namespace TheAgent

set_option maxRecDepth 8000

/-- Apostrophe character (singled out because several source error
messages quote names with it). -/
def apos : Char := Char.ofNat 39

/-- Double-quote character. -/
def dquo : Char := Char.ofNat 34

/-- Opening curly brace. -/
def openB : Char := Char.ofNat 123

/-- Closing curly brace. -/
def closeB : Char := Char.ofNat 125

/-- Opening square bracket. -/
def openBk : Char := Char.ofNat 91

/-- Closing square bracket. -/
def closeBk : Char := Char.ofNat 93

/-- The code-fence character used in markdown blocks. -/
def fenceChar : Char := Char.ofNat 96

/-- The three-character code-fence marker the agents split responses on. -/
def fence : List Char := [fenceChar, fenceChar, fenceChar]

/-- The tag stripped from fenced code blocks (`response.startswith("json")`). -/
def jsonTag : List Char := "json".data

/-- Python `str.strip()` whitespace set (ASCII part; the agents only ever
strip model output, for which this is the relevant set). -/
def isPySpace (c : Char) : Bool :=
  c = ' ' || c = Char.ofNat 9 || c = Char.ofNat 10 || c = Char.ofNat 13 ||
  c = Char.ofNat 11 || c = Char.ofNat 12

/-- Drop trailing whitespace, second half of Python `str.strip()`. -/
def dropEndSpace : List Char → List Char
  | [] => []
  | c :: t =>
    let r := dropEndSpace t
    if r.isEmpty && isPySpace c then [] else c :: r

/-- Python `str.strip()`. -/
def stripWs (s : List Char) : List Char :=
  dropEndSpace (s.dropWhile isPySpace)

/-- Python `ch in s` for a single character. -/
def containsChar (c : Char) : List Char → Bool
  | [] => false
  | a :: t => a = c || containsChar c t

/-- Python `pat in s` for a multi-character pattern (substring test). -/
def containsSeq (pat : List Char) : List Char → Bool
  | [] => pat.isPrefixOf []
  | c :: t => pat.isPrefixOf (c :: t) || containsSeq pat t

/-- Python `s.split("```")`: split on every non-overlapping occurrence of
the fence marker, left to right. -/
def splitFence : List Char → List (List Char)
  | [] => [[]]
  | c :: rest =>
    if fence.isPrefixOf (c :: rest) then
      [] :: splitFence (rest.drop 2)
    else
      match splitFence rest with
      | [] => [[c]]
      | p :: ps => (c :: p) :: ps
  termination_by s => s.length
  decreasing_by
    · simp [List.length_drop]; omega
    · simp

/-- Python `s.replace("json", "")`: remove every non-overlapping occurrence
of `json`, left to right (used by the branching-search strategy). -/
def replaceJson : List Char → List Char
  | [] => []
  | c :: rest =>
    if jsonTag.isPrefixOf (c :: rest) then
      replaceJson (rest.drop 3)
    else
      c :: replaceJson rest
  termination_by s => s.length
  decreasing_by
    · simp [List.length_drop]; omega
    · simp

/-- Python `s.find(ch)` returning `none` instead of `-1`. -/
def idxFirst (c : Char) : List Char → Option Nat
  | [] => none
  | a :: t => if a = c then some 0 else (idxFirst c t).map (· + 1)

/-- Python `s.rfind(ch)` returning `none` instead of `-1`. -/
def idxLast (c : Char) : List Char → Option Nat
  | [] => none
  | a :: t =>
    match idxLast c t with
    | some k => some (k + 1)
    | none => if a = c then some 0 else none

/-- Values produced by `json.loads`.  Numbers are modelled as rationals
(Python ints and floats merged; no claim depends on the distinction). -/
inductive JValue where
  | null : JValue
  | bool (b : Bool) : JValue
  | num (q : ℚ) : JValue
  | str (s : List Char) : JValue
  | arr (l : List JValue) : JValue
  | obj (l : List (List Char × JValue)) : JValue

/-- A decoded JSON object (Python dict with string keys). -/
abbrev JObj := List (List Char × JValue)

/-- Python truthiness of a decoded JSON value (`if decision.get(...):`). -/
def JValue.truthy : JValue → Bool
  | .null => false
  | .bool b => b
  | .num q => q ≠ 0
  | .str s => !s.isEmpty
  | .arr l => !l.isEmpty
  | .obj l => !l.isEmpty

/-- Python `d.get(key)` on a decoded object (`none` when absent;
decoded objects have unique keys, so first match suffices). -/
def jget (o : JObj) (k : List Char) : Option JValue :=
  (o.find? (fun p => p.1 = k)).map (·.2)

/-- Python `d.get(key, default)` on a decoded object. -/
def jgetD (o : JObj) (k : List Char) (d : JValue) : JValue :=
  (jget o k).getD d

/-- Whether a decoded value is a number. -/
def isNumJ : JValue → Bool
  | .num _ => true
  | _ => false

/-- Whether a decoded value is a boolean. -/
def isBoolJ : JValue → Bool
  | .bool _ => true
  | _ => false

/-- `response[start:end]` where `start = response.find(openB)` and
`end = response.rfind(closeB) + 1`, guarded by
`start != -1 and end > start` (react_agent.py lines 107-109,
cot_agent.py lines 176-178, tot_agent.py lines 293-295). -/
def extractObjSpan (s : List Char) : Option (List Char) :=
  match idxFirst openB s, idxLast closeB s with
  | some i, some j => if i ≤ j then some ((s.drop i).take (j + 1 - i)) else none
  | _, _ => none

/-- Same extraction for a JSON array span (tot_agent.py lines 189-191). -/
def extractArrSpan (s : List Char) : Option (List Char) :=
  match idxFirst openBk s, idxLast closeBk s with
  | some i, some j => if i ≤ j then some ((s.drop i).take (j + 1 - i)) else none
  | _, _ => none

/-- Fence narrowing used by ReAct and CoT decision parsing
(react_agent.py lines 95-104, cot_agent.py lines 165-173): take the first
fence-split part containing both braces, dropping a leading `json` tag. -/
def narrowReact (resp : List Char) : List Char :=
  let r := stripWs resp
  if containsSeq fence r then
    match (splitFence r).find? (fun p => containsChar openB p && containsChar closeB p) with
    | some p => if jsonTag.isPrefixOf p then stripWs (p.drop 4) else p
    | none => r
  else r

/-- Fence narrowing used by the branching-search strategy for object spans
(tot_agent.py lines 285-291 and 348-354): first part containing an opening
brace, with every `json` occurrence removed, stripped. -/
def narrowTotObj (resp : List Char) : List Char :=
  let r := stripWs resp
  if containsSeq fence r then
    match (splitFence r).find? (fun p => containsChar openB p) with
    | some p => stripWs (replaceJson p)
    | none => r
  else r

/-- Fence narrowing used by the branching-search strategy for array spans
(tot_agent.py lines 181-187). -/
def narrowTotArr (resp : List Char) : List Char :=
  let r := stripWs resp
  if containsSeq fence r then
    match (splitFence r).find? (fun p => containsChar openBk p) with
    | some p => stripWs (replaceJson p)
    | none => r
  else r

/-- Abstract model of `json.loads` restricted to object results.  `none`
models a raised decode error (always caught at the call sites). -/
abbrev ObjDecoder := List Char → Option JObj

/-- Abstract model of `json.loads` restricted to array results. -/
abbrev ArrDecoder := List Char → Option (List JValue)

/-- The dict key `"needs_tool"`. -/
def keyNeedsTool : List Char := "needs_tool".data

/-- The dict key `"tool_name"`. -/
def keyToolName : List Char := "tool_name".data

/-- The dict key `"parameters"`. -/
def keyParameters : List Char := "parameters".data

/-- The dict key `"score"`. -/
def keyScore : List Char := "score".data

/-- The dict key `"evaluation"`. -/
def keyEvaluation : List Char := "evaluation".data

/-- `_decide_action` of ReAct and CoT after the generation call
(react_agent.py lines 93-123, cot_agent.py lines 163-191; the two bodies
are identical): narrow, extract the `\x7b...\x7d` span, decode, and return
the decision dict iff `decision.get("needs_tool")` is truthy.  Every
failure (no span, decode error) is caught and yields `none`. -/
def decideAction (dec : ObjDecoder) (resp : List Char) : Option JObj :=
  match extractObjSpan (narrowReact resp) with
  | none => none
  | some sp =>
    match dec sp with
    | none => none
    | some o => if (jgetD o keyNeedsTool JValue.null).truthy then some o else none

/-- `true` iff the text contains an opening brace with a closing brace at a
later position — exactly the condition under which the span extraction of
`extractObjSpan` can succeed. -/
def hasBracePairB : List Char → Bool
  | [] => false
  | c :: t => (c = openB && containsChar closeB t) || hasBracePairB t

/-- The claim premise of C5: no recoverable span, i.e. no opening brace or
no closing brace after one. -/
def NoSpan (s : List Char) : Prop := hasBracePairB s = false

/-- A raised Python exception: class name and message. -/
structure ExcInfo where
  ename : List Char
  emsg : List Char
deriving DecidableEq

/-- A raised `KeyError`. -/
def keyError (m : List Char) : ExcInfo := ⟨"KeyError".data, m⟩

/-- A raised `ValueError`. -/
def valueError (m : List Char) : ExcInfo := ⟨"ValueError".data, m⟩

/-- A raised `TypeError`. -/
def typeError (m : List Char) : ExcInfo := ⟨"TypeError".data, m⟩

/-- A raised `AttributeError`. -/
def attrError (m : List Char) : ExcInfo := ⟨"AttributeError".data, m⟩

/-- Join text pieces with a separator (Python `sep.join(...)`). -/
def joinSep (sep : List Char) : List (List Char) → List Char
  | [] => []
  | [x] => x
  | x :: xs => x ++ sep ++ joinSep sep xs

/-- Rendering of a decoded JSON number under Python `str()`.  The rational
model merges ints and floats, so this rendering is approximate; no theorem
below depends on it. -/
def ratChars (q : ℚ) : List Char :=
  if q.den = 1 then (toString q.num).data else (toString q).data

/-- Decimal rendering of a natural number (f-string `{i}`). -/
def natChars (n : Nat) : List Char := (Nat.repr n).data

/-- Python `repr()` of a decoded JSON value (used for values nested inside
containers and for `str(dict)`). -/
def pyRepr : JValue → List Char
  | .null => "None".data
  | .bool true => "True".data
  | .bool false => "False".data
  | .num q => ratChars q
  | .str s => apos :: (s ++ [apos])
  | .arr l =>
    openBk :: (joinSep ", ".data (l.attach.map (fun x => pyRepr x.1)) ++ [closeBk])
  | .obj l =>
    openB :: (joinSep ", ".data
      (l.attach.map (fun x =>
        (apos :: (x.1.1 ++ [apos])) ++ ": ".data ++ pyRepr x.1.2)) ++ [closeB])
  decreasing_by
    · have h := List.sizeOf_lt_of_mem x.2
      simp only [JValue.arr.sizeOf_spec]
      omega
    · obtain ⟨⟨a, b⟩, hm⟩ := x
      have h := List.sizeOf_lt_of_mem hm
      simp only [Prod.mk.sizeOf_spec] at h
      simp only [JValue.obj.sizeOf_spec]
      omega

/-- Python `str()` of a decoded JSON value (f-string interpolation):
identical to `repr` except that a top-level string is rendered bare. -/
def pyStr : JValue → List Char
  | .str s => s
  | v => pyRepr v

/-- Python `str()` of an exception.  `str(KeyError(m))` is `repr(m)`
(quoted); other exception classes render their message directly. -/
def excStr (e : ExcInfo) : List Char :=
  if e.ename = "KeyError".data then
    if containsChar apos e.emsg then dquo :: (e.emsg ++ [dquo])
    else apos :: (e.emsg ++ [apos])
  else e.emsg

/-- Python `str()` of an `Optional[str]` (f-string `{result.error}`). -/
def optTextStr : Option (List Char) → List Char
  | none => "None".data
  | some s => s

/-- `ToolParameter` (tools/base.py lines 10-29). -/
structure ToolParam where
  name : List Char
  ty : List Char
  descr : List Char
  required : Bool := true
  default : Option JValue := none

/-- `ToolResult` (tools/base.py lines 32-56): the CapabilityOutcome. -/
structure ToolResult where
  success : Bool
  data : JValue := .null
  error : Option (List Char) := none
  metadata : JObj := []

/-- A registered tool: name, description, parameter spec, and the body of
its `execute` method.  `execute` may raise (modelled by `Except`), which
also covers keyword-signature mismatches at the call site. -/
structure RegTool where
  name : List Char
  descr : List Char
  params : List ToolParam := []
  exec : JObj → Except ExcInfo ToolResult

/-- The registry's live mapping `self._tools` — a Python dict modelled as
an insertion-ordered association list. -/
abbrev Registry := List (List Char × RegTool)

/-- Dict lookup `self._tools[name]` / `name in self._tools`. -/
def assocLookup (reg : Registry) (k : List Char) : Option RegTool :=
  (reg.find? (fun p => p.1 = k)).map (·.2)

/-- Dict assignment `self._tools[name] = tool`: replaces in place when the
key is present (Python dicts keep the original insertion position),
appends otherwise. -/
def dictInsert (k : List Char) (v : RegTool) : Registry → Registry
  | [] => [(k, v)]
  | (k2, v2) :: t => if k2 = k then (k, v) :: t else (k2, v2) :: dictInsert k v t

/-- `name in self._tools`. -/
def containsName (reg : Registry) (k : List Char) : Bool :=
  (assocLookup reg k).isSome

/-- `ToolRegistry.register` (tool_registry.py lines 68-73): warn when the
name is already present, then overwrite.  The boolean records whether the
duplicate warning was emitted. -/
def registerTool (reg : Registry) (t : RegTool) : Registry × Bool :=
  (dictInsert t.name t reg, containsName reg t.name)

/-- One discovered tool handled by `ToolRegistry._load_tools`
(tool_registry.py lines 43-47): a duplicate name is skipped with a
warning, otherwise the tool is added. -/
def loadStep (reg : Registry) (t : RegTool) : Registry × Bool :=
  if containsName reg t.name then (reg, true) else (reg ++ [(t.name, t)], false)

/-- The startup discovery path: fold `loadStep` over the discovered tool
instances in scan order, counting duplicate warnings.  (The filesystem
scan and dynamic import machinery produce this instance list; they are
modelled by taking the list as input.) -/
def loadTools (ts : List RegTool) : Registry × Nat :=
  ts.foldl
    (fun acc t =>
      let s := loadStep acc.1 t
      (s.1, acc.2 + (if s.2 then 1 else 0)))
    ([], 0)

/-- Message of the `KeyError` raised by `ToolRegistry.get_tool`
(tool_registry.py lines 53-56). -/
def toolNotFoundMsg (nm : JValue) : List Char :=
  "Tool ".data ++ [apos] ++ pyStr nm ++ [apos] ++ " not found in registry".data

/-- Dict membership with the name the strategy decoded, which need not be
a string; a non-string key is simply absent from the dict. -/
def regLookup (reg : Registry) (nm : JValue) : Option RegTool :=
  match nm with
  | .str s => assocLookup reg s
  | _ => none

/-- `ToolRegistry.execute_tool` (tool_registry.py lines 88-99): `get_tool`
raises `KeyError` for an unregistered name, then the tool's `execute` is
called directly (not `safe_execute`), so a fault it raises propagates. -/
def execute_tool (reg : Registry) (nm : JValue) (args : JObj) :
    Except ExcInfo ToolResult :=
  match regLookup reg nm with
  | none => .error (keyError (toolNotFoundMsg nm))
  | some t => t.exec args

/-- `kwargs.get(param.name)`: a stored JSON `null` is Python `None` and is
indistinguishable from an absent key for `validate_parameters`. -/
def getArg (args : JObj) (k : List Char) : Option JValue :=
  match jget args k with
  | some .null => none
  | v => v

/-- Message of the `ValueError` raised by `validate_parameters`
(tools/base.py lines 255-258). -/
def requiredMissingMsg (tname pname : List Char) : List Char :=
  "Required parameter ".data ++ [apos] ++ pname ++ [apos] ++
  " is missing for tool ".data ++ [apos] ++ tname ++ [apos]

/-- The parameter loop of `BaseTool.validate_parameters` (tools/base.py
lines 249-266): missing required parameter raises `ValueError`; a missing
optional parameter takes its default when one is set, else stays `None`. -/
def validateLoop (tname : List Char) (args : JObj) :
    List ToolParam → Except ExcInfo JObj
  | [] => .ok []
  | p :: ps =>
    let v := getArg args p.name
    if p.required && v.isNone then
      .error (valueError (requiredMissingMsg tname p.name))
    else
      (validateLoop tname args ps).map
        (fun rest => (p.name, ((v.or p.default).getD .null)) :: rest)

/-- `BaseTool.validate_parameters`. -/
def validateParams (t : RegTool) (args : JObj) : Except ExcInfo JObj :=
  validateLoop t.name args t.params

/-- Message of the error recorded by `safe_execute` (tools/base.py
lines 301-311). -/
def toolFailedMsg (tname : List Char) (e : ExcInfo) : List Char :=
  "Tool ".data ++ [apos] ++ tname ++ [apos] ++ " failed: ".data ++ excStr e

/-- The failure `ToolResult` built by `safe_execute`'s except branch. -/
def failResult (t : RegTool) (args : JObj) (e : ExcInfo) : ToolResult :=
  { success := false
    data := .null
    error := some (toolFailedMsg t.name e)
    metadata := [("tool".data, .str t.name), ("params".data, .obj args),
                 ("error_type".data, .str e.ename)] }

/-- `BaseTool.safe_execute` (tools/base.py lines 268-311): validate, run
`execute`, and convert any raised fault into `success := false`. -/
def safe_execute (t : RegTool) (args : JObj) : ToolResult :=
  match validateParams t args with
  | .error e => failResult t args e
  | .ok v =>
    match t.exec v with
    | .error e => failResult t args e
    | .ok r => r

/-- Faults that can escape a strategy's `run`: a generation-provider fault
(GenerationFault), or a Python exception raised along an unguarded path. -/
inductive Fault where
  | generation : Fault
  | capability (e : ExcInfo) : Fault
deriving DecidableEq

/-- The generation provider as the chronological stream of its replies;
`Except.error` at an index models a transport-level GenerationFault on
that call.  Prompts are not modelled: the strategies' control flow reads
only the returned texts, never the prompts. -/
abbrev Provider := Nat → Except Unit (List Char)

/-- A provider that always returns text (a "sequence of texts"). -/
def pureProv (texts : Nat → List Char) : Provider :=
  fun k => .ok (texts k)

/-- Run bookkeeping for the iterative strategy: `idx` is the number of
generation calls made so far (and the index of the next provider reply),
`iters` the number of loop iterations entered, `invocations` the number of
`registry.execute_tool` calls, `history` the transcript. -/
structure RSt where
  idx : Nat := 0
  iters : Nat := 0
  invocations : Nat := 0
  history : List (List Char × List Char) := []

/-- One `model.generate` round trip. -/
def genCall (prov : Provider) (st : RSt) : Except Fault (List Char × RSt) :=
  match prov st.idx with
  | .error _ => .error .generation
  | .ok t => .ok (t, { st with idx := st.idx + 1 })

/-- The transcript labels. -/
def kThought : List Char := "Thought".data

/-- Transcript label for actions. -/
def kAction : List Char := "Action".data

/-- Transcript label for observations. -/
def kObservation : List Char := "Observation".data

/-- The completion phrases of `ReActAgent._is_complete`
(react_agent.py lines 61-64). -/
def donePhrases : List (List Char) :=
  ["have enough".data, "can now answer".data, "task complete".data,
   "have the answer".data]

/-- Python `str.lower()` (ASCII; model output casing). -/
def lowerTxt (s : List Char) : List Char := s.map Char.toLower

/-- `ReActAgent._is_complete`. -/
def isComplete (thought : List Char) : Bool :=
  donePhrases.any (fun p => containsSeq p (lowerTxt thought))

/-- `action.get("parameters", {})` followed by `**parameters`: keyword
expansion requires a mapping, anything else raises `TypeError`. -/
def getParamsStrict (action : JObj) : Except ExcInfo JObj :=
  match jgetD action keyParameters (.obj []) with
  | .obj o => .ok o
  | _ => .error (typeError "argument after ** must be a mapping".data)

/-- The observation text `f"Failed: ..."` of ReAct's except branch
(react_agent.py line 141). -/
def failedText (e : ExcInfo) : List Char := "Failed: ".data ++ excStr e

/-- The item lines of ReAct's search-result formatting (react_agent.py
lines 132-136).  `item.get` on a non-dict raises `AttributeError`. -/
def reactItems : List JValue → Except ExcInfo (List Char)
  | [] => .ok []
  | .obj o :: t =>
    (reactItems t).map (fun rest =>
      "- ".data ++ pyStr (jgetD o "title".data (.str "N/A".data)) ++
      ": ".data ++ pyStr (jgetD o "snippet".data (.str "N/A".data)) ++
      [Char.ofNat 10] ++ rest)
  | _ :: _ =>
    .error (attrError "object has no attribute get".data)

/-- `ReActAgent._execute_action`'s result formatting (react_agent.py
lines 130-139): list data is rendered as a top-3 summary, other data via
`str`, failures as `"Error: ..."`. -/
def reactFormatResult (r : ToolResult) : Except ExcInfo (List Char) :=
  if r.success then
    match r.data with
    | .arr items => (reactItems (items.take 3)).map (fun ls => "Found:\n".data ++ ls)
    | d => .ok (pyStr d)
  else .ok ("Error: ".data ++ optTextStr r.error)

/-- `ReActAgent._execute_action` (react_agent.py lines 125-141): the whole
body sits in try/except, so a missing `tool_name` key, a non-mapping
parameter value, an unregistered tool, a fault raised by the tool, and a
formatting fault all become `"Failed: ..."` observation text.  The second
component counts the `registry.execute_tool` calls made (0 or 1). -/
def reactExecuteAction (reg : Registry) (action : JObj) :
    List Char × Nat :=
  match jget action keyToolName with
  | none => (failedText (keyError keyToolName), 0)
  | some nm =>
    match getParamsStrict action with
    | .error e => (failedText e, 0)
    | .ok args =>
      match execute_tool reg nm args with
      | .error e => (failedText e, 1)
      | .ok r =>
        match reactFormatResult r with
        | .error e => (failedText e, 1)
        | .ok obs => (obs, 1)

/-- `ReActAgent._final_answer` (react_agent.py lines 143-156): one more
generation call, stripped. -/
def reactFinal (prov : Provider) (st : RSt) : Except Fault (List Char × RSt) :=
  match genCall prov st with
  | .error f => .error f
  | .ok (t, st1) => .ok (stripWs t, st1)

/-- The think→decide→act→observe loop of `ReActAgent.run` (react_agent.py
lines 17-44), by remaining step count. -/
def reactLoop (prov : Provider) (dec : ObjDecoder) (reg : Registry)
    (query : List Char) : Nat → RSt → Except Fault (List Char × RSt)
  | 0, st => reactFinal prov st
  | n + 1, st =>
    match genCall prov st with
    | .error f => .error f
    | .ok (t, st1) =>
      let thought := stripWs t
      let st2 := { st1 with iters := st1.iters + 1,
                            history := st1.history ++ [(kThought, thought)] }
      if isComplete thought then reactFinal prov st2
      else
        match genCall prov st2 with
        | .error f => .error f
        | .ok (dtext, st3) =>
          match decideAction dec dtext with
          | none => reactFinal prov st3
          | some action =>
            let os := reactExecuteAction reg action
            let st5 := { st3 with
              invocations := st3.invocations + os.2,
              history := (st3.history ++ [(kAction, pyRepr (.obj action))]) ++
                [(kObservation, os.1)] }
            reactLoop prov dec reg query n st5

/-- `ReActAgent.run` with step bound `N` (`max_steps`). -/
def reactRun (prov : Provider) (dec : ObjDecoder) (reg : Registry)
    (query : List Char) (N : Nat) : Except Fault (List Char × RSt) :=
  reactLoop prov dec reg query N {}

/-- Python `s.split(sep)` for a single-character separator. -/
def splitChar (sep : Char) : List Char → List (List Char)
  | [] => [[]]
  | c :: t =>
    if c = sep then [] :: splitChar sep t
    else
      match splitChar sep t with
      | [] => [[c]]
      | p :: ps => (c :: p) :: ps

/-- `line.split(":", 1)[-1]`: the text after the first colon, or the whole
line when there is none. -/
def afterFirstColon (s : List Char) : List Char :=
  match idxFirst ':' s with
  | none => s
  | some i => s.drop (i + 1)

/-- The `"Step "` marker scanned for by chain parsing. -/
def stepTag : List Char := "Step ".data

/-- The line loop of `CoTAgent._generate_thought_chain` (cot_agent.py
lines 88-108): accumulate lines into the current thought, flushing it when
a new `Step` marker starts. -/
def chainLoop : List (List Char) → List (List Char) → List (List Char) →
    List (List Char)
  | [], cur, acc => if cur.isEmpty then acc else acc ++ [joinSep [' '] cur]
  | l :: ls, cur, acc =>
    let line := stripWs l
    let isStep := stepTag.isPrefixOf line
    let acc1 := if isStep && !cur.isEmpty then acc ++ [joinSep [' '] cur] else acc
    let cur1 := if isStep && !cur.isEmpty then [] else cur
    let line1 := if isStep then stripWs (afterFirstColon line) else line
    let cur2 := if line1.isEmpty then cur1 else cur1 ++ [line1]
    chainLoop ls cur2 acc1

/-- `CoTAgent._generate_thought_chain`'s response parsing, truncated to
the configured `num_thoughts` `K` (cot_agent.py lines 87-114). -/
def parseThoughtChain (resp : List Char) (K : Nat) : List (List Char) :=
  (chainLoop (splitChar (Char.ofNat 10) (stripWs resp)) [] []).take K

/-- Call tally of one `CoTAgent.run`. -/
structure CSt where
  genCalls : Nat := 0
  chainCalls : Nat := 0
  decideCalls : Nat := 0
  invocations : Nat := 0
  synthCalls : Nat := 0
deriving DecidableEq

/-- One formatted line of CoT's search-result summary (cot_agent.py
lines 213-218); non-dict items are skipped; slicing a non-sliceable
snippet value raises `TypeError`. -/
def cotFormatItem (i : Nat) (item : JValue) : Except ExcInfo (Option (List Char)) :=
  match item with
  | .obj o =>
    let title := jgetD o "title".data (.str "No title".data)
    let snip := jgetD o "snippet".data (jgetD o "body".data (.str []))
    match snip with
    | .str s =>
      .ok (some (natChars i ++ ". ".data ++ pyStr title ++ ": ".data ++
        s.take 150 ++ "...".data))
    | .arr l =>
      .ok (some (natChars i ++ ". ".data ++ pyStr title ++ ": ".data ++
        pyStr (.arr (l.take 150)) ++ "...".data))
    | _ => .error (typeError "value is not subscriptable".data)
  | _ => .ok none

/-- The `enumerate(result.data[:5], 1)` loop of CoT's formatting. -/
def cotFormatItems (i : Nat) : List JValue → Except ExcInfo (List (List Char))
  | [] => .ok []
  | item :: t =>
    match cotFormatItem i item with
    | .error e => .error e
    | .ok none => (cotFormatItems (i + 1) t)
    | .ok (some line) => (cotFormatItems (i + 1) t).map (line :: ·)

/-- `CoTAgent._execute_action`'s observation formatting (cot_agent.py
lines 209-227); unlike ReAct there is no try/except around it. -/
def cotFormatResult (r : ToolResult) : Except ExcInfo (List Char) :=
  if r.success then
    match r.data with
    | .arr items => (cotFormatItems 1 (items.take 5)).map (joinSep [Char.ofNat 10])
    | d => .ok (pyStr d)
  else .ok ("Error: ".data ++ optTextStr r.error)

/-- `CoTAgent._execute_action` (cot_agent.py lines 193-227): no exception
handler — a missing `tool_name`, a non-mapping parameter value, an
unregistered tool, a tool-raised fault, or a formatting fault all
propagate out.  The second component counts `execute_tool` calls. -/
def cotExecuteAction (reg : Registry) (action : JObj) :
    Except ExcInfo (List Char) × Nat :=
  match jget action keyToolName with
  | none => (.error (keyError keyToolName), 0)
  | some nm =>
    match getParamsStrict action with
    | .error e => (.error e, 0)
    | .ok args =>
      match execute_tool reg nm args with
      | .error e => (.error e, 1)
      | .ok r => (cotFormatResult r, 1)

/-- `CoTAgent.run` (cot_agent.py lines 37-63): one chain generation, one
decision, at most one action, then synthesis.  The tally is returned even
when the run raises. -/
def cotRun (prov : Provider) (dec : ObjDecoder) (reg : Registry)
    (_query : List Char) (K : Nat) : Except Fault (List Char) × CSt :=
  match prov 0 with
  | .error _ => (.error .generation, { genCalls := 1, chainCalls := 1 })
  | .ok t0 =>
    let _thoughts := parseThoughtChain t0 K
    match prov 1 with
    | .error _ =>
      (.error .generation, { genCalls := 2, chainCalls := 1, decideCalls := 1 })
    | .ok t1 =>
      match decideAction dec t1 with
      | some action =>
        match cotExecuteAction reg action with
        | (.error e, inv) =>
          (.error (.capability e),
           { genCalls := 2, chainCalls := 1, decideCalls := 1, invocations := inv })
        | (.ok _obs, inv) =>
          match prov 2 with
          | .error _ =>
            (.error .generation,
             { genCalls := 3, chainCalls := 1, decideCalls := 1,
               invocations := inv, synthCalls := 1 })
          | .ok t2 =>
            (.ok (stripWs t2),
             { genCalls := 3, chainCalls := 1, decideCalls := 1,
               invocations := inv, synthCalls := 1 })
      | none =>
        match prov 2 with
        | .error _ =>
          (.error .generation,
           { genCalls := 3, chainCalls := 1, decideCalls := 1, synthCalls := 1 })
        | .ok t2 =>
          (.ok (stripWs t2),
           { genCalls := 3, chainCalls := 1, decideCalls := 1, synthCalls := 1 })

/-- The generic fallback continuations of `_generate_branches`
(tot_agent.py line 204). -/
def placeholders (B : Nat) : List JValue :=
  (List.range B).map (fun i =>
    .str ("Approach ".data ++ natChars (i + 1) ++ " for the problem".data))

/-- `TreeOfThoughtsAgent._generate_branches`'s response handling
(tot_agent.py lines 179-204): extract and decode a JSON array and truncate
to `B`; when the span extraction or the decode fails, fall back to `B`
placeholders.  A successfully decoded array is used as-is, even empty. -/
def generateBranches (dec : ArrDecoder) (resp : List Char) (B : Nat) :
    List JValue :=
  match extractArrSpan (narrowTotArr resp) with
  | some sp =>
    match dec sp with
    | some l => l.take B
    | none => placeholders B
  | none => placeholders B

/-- A node of the reasoning tree (`TreeNode`, tot_agent.py lines 12-38);
depth and parent pointers are reconstructible from the structure. -/
inductive RTree where
  | node (content : JValue) (children : List RTree)

/-- One level of `TreeOfThoughtsAgent._build_tree` (tot_agent.py
lines 116-142): expand each sibling in order with one branch-generation
call (consuming provider reply `k`), recursing into its children through
`expand`.  Returns the built siblings and the next call index. -/
def buildLevel (texts : Nat → List Char) (dec : ArrDecoder) (B : Nat)
    (expand : List JValue → Nat → List RTree × Nat) :
    List JValue → Nat → List RTree × Nat
  | [], k => ([], k)
  | c :: rest, k =>
    let bs := generateBranches dec (texts k) B
    let child := expand bs (k + 1)
    let sibs := buildLevel texts dec B expand rest child.2
    (RTree.node c child.1 :: sibs.1, sibs.2)

/-- `TreeOfThoughtsAgent._build_tree` over a sibling list, depth-first in
construction order.  `fuel` is `max_depth - depth`: a node is expanded iff
its fuel is positive. -/
def buildForest (texts : Nat → List Char) (dec : ArrDecoder) (B : Nat) :
    Nat → List JValue → Nat → List RTree × Nat
  | 0 => fun contents k => (contents.map (fun c => RTree.node c []), k)
  | fuel + 1 => buildLevel texts dec B (buildForest texts dec B fuel)

/-- Every node with positive fuel (depth < D) has at least one child, and
its children satisfy the same at one less fuel. -/
def goodTree : Nat → RTree → Prop
  | 0, _ => True
  | fuel + 1, .node _ cs => cs ≠ [] ∧ ∀ c ∈ cs, goodTree fuel c

/-- `TreeOfThoughtsAgent._evaluate_single_path`'s response handling
(tot_agent.py lines 283-302): extract and decode a JSON object; on success
take `score` (default `5.0`) and `evaluation` (default text) as stored; on
any failure return the neutral `(5.0, "Could not evaluate path")`. -/
def evaluateSingle (dec : ObjDecoder) (resp : List Char) : JValue × JValue :=
  match extractObjSpan (narrowTotObj resp) with
  | some sp =>
    match dec sp with
    | some o =>
      (jgetD o keyScore (.num 5), jgetD o keyEvaluation (.str "No evaluation".data))
    | none => (.num 5, .str "Could not evaluate path".data)
  | none => (.num 5, .str "Could not evaluate path".data)

/-- One evaluated leaf path (the dict built in `_evaluate_paths`,
tot_agent.py lines 238-244), restricted to numeric scores — the case in
which the sort's key comparisons are defined (see C8 for the non-numeric
case). -/
structure EvalRec where
  pathStr : List Char
  score : ℚ
  evaluation : List Char
deriving DecidableEq

/-- Stable descending insertion: the new, later-constructed record goes
after every earlier record of greater-or-equal score. -/
def insertDesc (x : EvalRec) : List EvalRec → List EvalRec
  | [] => [x]
  | y :: ys => if y.score ≤ x.score then x :: y :: ys else y :: insertDesc x ys

/-- `evaluated.sort(key=lambda x: x["score"], reverse=True)`
(tot_agent.py line 250).  Python's sort is stable, and a stable sort by a
fixed key is a unique function of its input, so this insertion sort
computes exactly the source's result. -/
def sortPaths : List EvalRec → List EvalRec
  | [] => []
  | x :: xs => insertDesc x (sortPaths xs)

/-- `TreeOfThoughtsAgent._select_best_path` (tot_agent.py lines 304-309):
the first element of the sorted list (`evaluated_paths[0]`). -/
def selectBestPath (l : List EvalRec) : Option EvalRec :=
  (sortPaths l).head?

/-!
### Helper lemmas

The decision parser only ever narrows the generated text (strip, fence
part selection, tag removal), so the absence of a brace span in the raw
text persists through every narrowing step.
-/

theorem dropEndSpace_sublist (s : List Char) :
    List.Sublist (dropEndSpace s) s := by
  induction s with
  | nil => simp [dropEndSpace]
  | cons c t ih =>
    simp only [dropEndSpace]
    split
    · exact List.nil_sublist _
    · exact ih.cons₂ c

theorem stripWs_sublist (s : List Char) : List.Sublist (stripWs s) s :=
  (dropEndSpace_sublist _).trans (List.dropWhile_sublist _)

theorem splitFence_sublist (s : List Char) :
    ∀ p ∈ splitFence s, List.Sublist p s := by
  match s with
  | [] =>
    intro p hp
    simp only [splitFence, List.mem_singleton] at hp
    simp [hp]
  | c :: rest =>
    intro p hp
    rw [splitFence] at hp
    split at hp
    · rcases List.mem_cons.mp hp with h | h
      · simp [h]
      · exact ((splitFence_sublist (rest.drop 2) p h).trans
          (List.drop_sublist 2 rest)).cons c
    · rcases hs : splitFence rest with _ | ⟨q, qs⟩ <;> rw [hs] at hp
      · simp only [List.mem_singleton] at hp
        subst hp
        exact (List.nil_sublist rest).cons₂ c
      · rcases List.mem_cons.mp hp with h | h
        · subst h
          exact (splitFence_sublist rest q (by rw [hs]; exact List.mem_cons_self q qs)).cons₂ c
        · exact (splitFence_sublist rest p (by rw [hs]; exact List.mem_cons_of_mem q h)).cons c
  termination_by s.length
  decreasing_by all_goals (simp [List.length_drop]; try omega)

theorem idxFirst_get (c : Char) :
    ∀ (s : List Char) (i : Nat), idxFirst c s = some i → s.get? i = some c := by
  intro s
  induction s with
  | nil => simp [idxFirst]
  | cons a t ih =>
    intro i h
    simp only [idxFirst] at h
    split at h
    · next heq =>
      cases h
      simp [heq]
    · cases hm : idxFirst c t with
      | none => rw [hm] at h; simp at h
      | some j =>
        rw [hm] at h
        simp at h
        subst h
        simpa using ih j hm

theorem idxLast_get (c : Char) :
    ∀ (s : List Char) (j : Nat), idxLast c s = some j → s.get? j = some c := by
  intro s
  induction s with
  | nil => simp [idxLast]
  | cons a t ih =>
    intro j h
    simp only [idxLast] at h
    cases hm : idxLast c t with
    | some k =>
      simp only [hm] at h
      cases h
      simpa using ih k hm
    | none =>
      simp only [hm] at h
      split at h
      · next heq =>
        cases h
        simp [heq]
      · simp at h

theorem pair_sublist_of_get (a b : Char) :
    ∀ (s : List Char) (i j : Nat), i < j → s.get? i = some a →
      s.get? j = some b → List.Sublist [a, b] s := by
  intro s
  induction s with
  | nil => intro i j _ ha _; simp at ha
  | cons c t ih =>
    intro i j hij ha hb
    cases i with
    | zero =>
      simp only [List.get?_cons_zero, Option.some_inj] at ha
      cases j with
      | zero => omega
      | succ j2 =>
        simp only [List.get?_cons_succ] at hb
        rw [← ha]
        exact (List.singleton_sublist.mpr (List.get?_mem hb)).cons₂ c
    | succ i2 =>
      cases j with
      | zero => omega
      | succ j2 =>
        simp only [List.get?_cons_succ] at ha hb
        exact (ih i2 j2 (by omega) ha hb).cons c

theorem containsChar_iff (c : Char) (s : List Char) :
    containsChar c s = true ↔ c ∈ s := by
  induction s with
  | nil => simp [containsChar]
  | cons a t ih =>
    simp only [containsChar, Bool.or_eq_true, decide_eq_true_eq, ih,
      List.mem_cons]
    constructor
    · rintro (h | h)
      · exact Or.inl h.symm
      · exact Or.inr h
    · rintro (h | h)
      · exact Or.inl h.symm
      · exact Or.inr h

theorem hasBracePair_iff (s : List Char) :
    hasBracePairB s = true ↔ List.Sublist [openB, closeB] s := by
  induction s with
  | nil => simp [hasBracePairB]
  | cons c t ih =>
    simp only [hasBracePairB, Bool.or_eq_true, Bool.and_eq_true,
      decide_eq_true_eq]
    constructor
    · rintro (⟨hc, hct⟩ | h)
      · subst hc
        exact (List.singleton_sublist.mpr
          ((containsChar_iff _ _).mp hct)).cons₂ openB
      · exact (ih.mp h).cons c
    · intro h
      cases h with
      | cons _ h2 => exact Or.inr (ih.mpr h2)
      | cons₂ _ h2 =>
        exact Or.inl ⟨rfl, (containsChar_iff _ _).mpr (List.singleton_sublist.mp h2)⟩

theorem noPair_of_sublist {t s : List Char} (hsub : List.Sublist t s)
    (h : hasBracePairB s = false) : hasBracePairB t = false := by
  by_contra hne
  have ht : hasBracePairB t = true := by
    cases hb : hasBracePairB t
    · exact absurd hb hne
    · rfl
  have := ((hasBracePair_iff t).mp ht).trans hsub
  rw [(hasBracePair_iff s).mpr this] at h
  exact absurd h (by decide)

theorem extractObjSpan_eq_none {s : List Char}
    (h : hasBracePairB s = false) : extractObjSpan s = none := by
  unfold extractObjSpan
  cases hi : idxFirst openB s with
  | none => rfl
  | some i =>
    cases hj : idxLast closeB s with
    | none => rfl
    | some j =>
      have hgi := idxFirst_get openB s i hi
      have hgj := idxLast_get closeB s j hj
      have hne : ¬ i ≤ j := by
        intro hij
        have hlt : i < j := by
          rcases Nat.lt_or_ge i j with hl | hg
          · exact hl
          · exfalso
            have : i = j := by omega
            subst this
            rw [hgi] at hgj
            have : openB = closeB := Option.some_inj.mp hgj
            exact absurd this (by decide)
        have hpair := pair_sublist_of_get openB closeB s i j hlt hgi hgj
        rw [(hasBracePair_iff s).mpr hpair] at h
        exact absurd h (by decide)
      simp [hne]

theorem narrowReact_sublist (resp : List Char) :
    List.Sublist (narrowReact resp) resp := by
  have hr : List.Sublist (stripWs resp) resp := stripWs_sublist resp
  simp only [narrowReact]
  split
  · cases hf : (splitFence (stripWs resp)).find?
        (fun p => containsChar openB p && containsChar closeB p) with
    | none => simp [hf, hr]
    | some p =>
      have hps : List.Sublist p (stripWs resp) :=
        splitFence_sublist _ p (List.mem_of_find?_eq_some hf)
      simp only [hf]
      split
      · exact ((stripWs_sublist _).trans ((List.drop_sublist 4 p).trans hps)).trans hr
      · exact hps.trans hr
  · exact hr

/-- Core of C5: a decision response with no recoverable brace span parses
to "no action wanted", for every decoder. -/
theorem decideAction_noSpan (dec : ObjDecoder) (resp : List Char)
    (h : NoSpan resp) : decideAction dec resp = none := by
  unfold NoSpan at h
  unfold decideAction
  rw [extractObjSpan_eq_none (noPair_of_sublist (narrowReact_sublist resp) h)]

/-- After `dictInsert`, looking up the inserted key finds the new value. -/
theorem assocLookup_dictInsert (reg : Registry) (k : List Char) (v : RegTool) :
    assocLookup (dictInsert k v reg) k = some v := by
  induction reg with
  | nil => simp [dictInsert, assocLookup, List.find?]
  | cons p t ih =>
    rcases p with ⟨k2, v2⟩
    by_cases h : k2 = k
    · subst h
      simp [dictInsert, assocLookup, List.find?]
    · simp only [assocLookup] at ih
      simp [dictInsert, assocLookup, List.find?, h, ih]

/-!
### C2 — Registry invocation error handling
-/

/-- Unregistered-name fixture for C2. -/
def cxName2 : JValue := .str "x".data

/-- C2 counterexample: invoking an unregistered capability name through
`execute_tool` raises `KeyError` (an exception that propagates to the
caller); no `CapabilityOutcome` with `success := false` is returned, so
the claimed contract fails at this input. -/
theorem execute_tool_unregistered_raises :
    execute_tool [] cxName2 [] =
      Except.error (keyError (toolNotFoundMsg cxName2)) ∧
    (execute_tool [] cxName2 []).toOption = none := ⟨rfl, rfl⟩

/-- C2 (amended): `execute_tool` raises `KeyError` for an unregistered
name and otherwise calls the implementation's `execute` directly, letting
its faults propagate; the wrap-as-`success := false` contract the spec
describes is implemented by `BaseTool.safe_execute`, which `execute_tool`
does not use: `safe_execute` converts both validation faults and faults
raised by `execute` into a failure `ToolResult`, never propagating. -/
theorem registry_invoke_amended (reg : Registry) (nm : JValue) (args : JObj)
    (t : RegTool) :
    (regLookup reg nm = none →
      execute_tool reg nm args = .error (keyError (toolNotFoundMsg nm))) ∧
    (regLookup reg nm = some t → execute_tool reg nm args = t.exec args) ∧
    (∀ v e, validateParams t args = .ok v → t.exec v = .error e →
      safe_execute t args = failResult t args e) ∧
    (∀ e, validateParams t args = .error e →
      safe_execute t args = failResult t args e) := by
  refine ⟨?_, ?_, ?_, ?_⟩
  · intro h
    simp [execute_tool, h]
  · intro h
    simp [execute_tool, h]
  · intro v e hv he
    simp [safe_execute, hv, he]
  · intro e he
    simp [safe_execute, he]

/-- Always-failing tool fixture for the C2 witness. -/
def cxTool2 : RegTool :=
  ⟨"w".data, "d".data, [], fun _ => .error (valueError "boom".data)⟩

/-- Witness for the amended C2 theorem at concrete inputs. -/
theorem registry_invoke_amended_witness :
    execute_tool [] cxName2 [] =
      .error (keyError (toolNotFoundMsg cxName2)) ∧
    safe_execute cxTool2 [] = failResult cxTool2 [] (valueError "boom".data) :=
  ⟨(registry_invoke_amended [] cxName2 [] cxTool2).1 rfl,
   (registry_invoke_amended [] (.str "w".data) [] cxTool2).2.2.1 []
     (valueError "boom".data) rfl rfl⟩

/-!
### C4 — Duplicate registration policy
-/

/-- First discovered tool with a duplicated name. -/
def cxToolA : RegTool := ⟨"dup".data, "first".data, [], fun _ => .ok ⟨true, .null, none, []⟩⟩

/-- Second discovered tool with the same name but different description. -/
def cxToolB : RegTool := ⟨"dup".data, "second".data, [], fun _ => .ok ⟨true, .null, none, []⟩⟩

/-- C4 counterexample: the startup discovery path does not apply
last-registration-wins — loading two tools with the same name keeps the
first and skips the second (with one warning), so the claim fails for the
discovery path. -/
theorem load_tools_skips_duplicate :
    (loadTools [cxToolA, cxToolB]).1.map (fun p => p.2.descr) = ["first".data] ∧
    (loadTools [cxToolA, cxToolB]).2 = 1 ∧
    cxToolB.descr = "second".data := ⟨rfl, rfl, rfl⟩

/-- C4 (amended): the manual `register` operation replaces an existing
registration with the newer one and emits a warning (last wins), and
registers silently when the name is fresh; the startup discovery path
instead skips a duplicate name with a warning, keeping the older
registration (first wins). -/
theorem register_policies_amended (reg : Registry) (t : RegTool) :
    (containsName reg t.name = true →
      (registerTool reg t).2 = true ∧
      assocLookup (registerTool reg t).1 t.name = some t) ∧
    (containsName reg t.name = false →
      (registerTool reg t).2 = false ∧
      assocLookup (registerTool reg t).1 t.name = some t) ∧
    (containsName reg t.name = true → loadStep reg t = (reg, true)) ∧
    (containsName reg t.name = false →
      loadStep reg t = (reg ++ [(t.name, t)], false)) := by
  refine ⟨?_, ?_, ?_, ?_⟩
  · intro h
    exact ⟨by simp [registerTool, h], assocLookup_dictInsert reg t.name t⟩
  · intro h
    exact ⟨by simp [registerTool, h], assocLookup_dictInsert reg t.name t⟩
  · intro h
    simp [loadStep, h]
  · intro h
    simp [loadStep, h]

/-- Witness for the amended C4 theorem: re-registering a duplicate name
overwrites with a warning, and the discovery path skips it. -/
theorem register_policies_witness :
    (registerTool [("dup".data, cxToolA)] cxToolB).2 = true ∧
    assocLookup (registerTool [("dup".data, cxToolA)] cxToolB).1
      cxToolB.name = some cxToolB ∧
    loadStep [("dup".data, cxToolA)] cxToolB = ([("dup".data, cxToolA)], true) := by
  have h := register_policies_amended [("dup".data, cxToolA)] cxToolB
  have h1 := h.1 rfl
  exact ⟨h1.1, h1.2, h.2.2.1 rfl⟩

/-!
### C6 — Decision-shape validation
-/

/-- Fixture response for C6: the exact text
`\x7b"needs_tool": 1\x7d` (no fences). -/
def cxResp6 : List Char := "\x7b\"needs_tool\": 1\x7d".data

/-- Fixture decoder for C6: `json.loads` on that span yields a dict whose
wants-action field is the integer `1` and which has no capability-name
field. -/
def cxDec6 : ObjDecoder := fun s =>
  if s = cxResp6 then some [(keyNeedsTool, .num 1)] else none

/-- C6 counterexample: a decoded decision object whose wants-action field
is not a boolean and which has no capability-name field is still returned
as an action intent, so the claimed shape validation does not happen. -/
theorem decide_action_accepts_invalid_shape :
    decideAction cxDec6 cxResp6 = some [(keyNeedsTool, JValue.num 1)] ∧
    isBoolJ (jgetD [(keyNeedsTool, JValue.num 1)] keyNeedsTool JValue.null) = false ∧
    jget [(keyNeedsTool, JValue.num 1)] keyToolName = none := ⟨rfl, rfl, rfl⟩

/-- C6 (amended): the decision parser validates only Python truthiness of
the wants-action field: every returned action intent is the decoded object
itself and has a truthy wants-action field (of any type, with no
capability-name or arguments requirement), and a successfully decoded
object with a falsy or missing wants-action field is treated as "no
capability needed". -/
theorem decide_action_truthiness_only (dec : ObjDecoder) (resp : List Char) :
    (∀ o, decideAction dec resp = some o →
      (jgetD o keyNeedsTool JValue.null).truthy = true ∧
      ∃ sp, extractObjSpan (narrowReact resp) = some sp ∧ dec sp = some o) ∧
    (∀ sp o, extractObjSpan (narrowReact resp) = some sp → dec sp = some o →
      (jgetD o keyNeedsTool JValue.null).truthy = false →
      decideAction dec resp = none) := by
  constructor
  · intro o h
    unfold decideAction at h
    cases hsp : extractObjSpan (narrowReact resp) with
    | none => simp [hsp] at h
    | some sp =>
      simp only [hsp] at h
      cases hd : dec sp with
      | none => simp [hd] at h
      | some o2 =>
        simp only [hd] at h
        split at h
        · next ht =>
          cases h
          exact ⟨ht, sp, rfl, hd⟩
        · simp at h
  · intro sp o hsp hd ht
    unfold decideAction
    simp [hsp, hd, ht]

/-- Falsy-decision fixture for the C6 witness. -/
def cxResp6w : List Char := "\x7b\"needs_tool\": false\x7d".data

/-- Decoder fixture for the C6 witness. -/
def cxDec6w : ObjDecoder := fun s =>
  if s = cxResp6w then some [(keyNeedsTool, .bool false)] else none

/-- Witness for the amended C6 theorem at concrete inputs. -/
theorem decide_action_truthiness_witness :
    decideAction cxDec6w cxResp6w = none :=
  (decide_action_truthiness_only cxDec6w cxResp6w).2 cxResp6w
    [(keyNeedsTool, .bool false)] rfl rfl rfl

/-!
### C7 — Branch-generation fallback and tree shape
-/

theorem placeholders_length (B : Nat) : (placeholders B).length = B := by
  simp [placeholders]

theorem placeholders_ne_nil {B : Nat} (hB : 0 < B) : placeholders B ≠ [] := by
  intro h
  have := placeholders_length B
  rw [h] at this
  simp at this
  omega

/-- When `B` is positive and every successful decode is non-empty, every
recovered branch list is non-empty. -/
theorem generateBranches_ne_nil (dec : ArrDecoder) (resp : List Char) (B : Nat)
    (hB : 0 < B) (hdec : ∀ sp l, dec sp = some l → l ≠ []) :
    generateBranches dec resp B ≠ [] := by
  unfold generateBranches
  cases hsp : extractArrSpan (narrowTotArr resp) with
  | none =>
    simp only [hsp]
    exact placeholders_ne_nil hB
  | some sp =>
    simp only [hsp]
    cases hd : dec sp with
    | none =>
      simp only [hd]
      exact placeholders_ne_nil hB
    | some l =>
      simp only [hd]
      have hl := hdec sp l hd
      intro h
      rcases List.take_eq_nil_iff.mp h with h0 | h0 <;>
        first
          | omega
          | exact hl h0

/-- Unfolding equation of `buildForest` at positive fuel. -/
theorem buildForest_succ (texts : Nat → List Char) (dec : ArrDecoder) (B : Nat)
    (f : Nat) (contents : List JValue) (k : Nat) :
    buildForest texts dec B (f + 1) contents k =
      buildLevel texts dec B (buildForest texts dec B f) contents k := rfl

/-- `buildForest` produces one tree per requested sibling. -/
theorem buildForest_length (texts : Nat → List Char) (dec : ArrDecoder)
    (B : Nat) : ∀ fuel contents k,
    ((buildForest texts dec B fuel contents k).1).length = contents.length := by
  intro fuel
  induction fuel with
  | zero => intro contents k; simp [buildForest]
  | succ f ih =>
    intro contents
    induction contents with
    | nil => intro k; simp [buildForest_succ, buildLevel]
    | cons c rest ih2 =>
      intro k
      simp only [buildForest_succ, buildLevel] at ih2 ⊢
      simp [ih2]

/-- When `B` is positive and every successful decode is non-empty, every
node of the built forest with positive remaining fuel has at least one
child. -/
theorem buildForest_good (texts : Nat → List Char) (dec : ArrDecoder)
    (B : Nat) (hB : 0 < B) (hdec : ∀ sp l, dec sp = some l → l ≠ []) :
    ∀ fuel contents k, ∀ t ∈ (buildForest texts dec B fuel contents k).1,
      goodTree fuel t := by
  intro fuel
  induction fuel with
  | zero =>
    intro contents k t _
    simp [goodTree]
  | succ f ih =>
    intro contents
    induction contents with
    | nil =>
      intro k t ht
      simp [buildForest_succ, buildLevel] at ht
    | cons c rest ih2 =>
      intro k t ht
      simp only [buildForest_succ, buildLevel] at ht
      rcases List.mem_cons.mp ht with rfl | hmem
      · refine ⟨?_, ?_⟩
        · intro h0
          have hlen := buildForest_length texts dec B f
            (generateBranches dec (texts k) B) (k + 1)
          rw [h0] at hlen
          exact generateBranches_ne_nil dec (texts k) B hB hdec
            (List.length_eq_zero.mp hlen.symm)
        · intro c2 hc2
          exact ih _ _ c2 hc2
      · exact ih2 _ t (by simpa [buildForest_succ, buildLevel] using hmem)

/-- Empty-array response fixture for C7. -/
def cxRespArr : List Char := "[]".data

/-- Decoder fixture for C7: `json.loads` on the span `[]` yields the empty
list. -/
def cxDecArr : ArrDecoder := fun s => if s = cxRespArr then some [] else none

/-- Root content fixture for C7. -/
def cxQ7 : JValue := .str "Query: q".data

/-- C7 counterexample: a response whose JSON array decodes to zero
candidates yields zero branches — not the claimed `B` placeholders — so
with `B = 3`, `D = 2` the root, an expanded non-leaf node at depth
`0 < D`, ends up with no children. -/
theorem generate_branches_empty_array_no_fallback :
    generateBranches cxDecArr cxRespArr 3 = [] ∧
    placeholders 3 ≠ [] ∧
    (buildForest (fun _ => cxRespArr) cxDecArr 3 2 [cxQ7] 0).1 =
      [RTree.node cxQ7 []] := by
  refine ⟨rfl, ?_, rfl⟩
  exact placeholders_ne_nil (by omega)

/-- C7 (amended): the strategy proceeds with exactly the recovered
candidates truncated to `B` whenever the JSON array decodes, even when it
decodes to zero candidates (in which case the expanded node is left
childless); the fall back to `B` generic placeholders happens only when
span extraction or decoding fails.  Provided `B ≥ 1` and every
successfully decoded candidate list is non-empty, every expanded non-leaf
node of the built tree has at least one child. -/
theorem generate_branches_fallback_amended (dec : ArrDecoder)
    (resp : List Char) (B : Nat) (texts : Nat → List Char) (D : Nat)
    (q : JValue) (k : Nat) :
    (extractArrSpan (narrowTotArr resp) = none →
      generateBranches dec resp B = placeholders B) ∧
    (∀ sp, extractArrSpan (narrowTotArr resp) = some sp → dec sp = none →
      generateBranches dec resp B = placeholders B) ∧
    (∀ sp l, extractArrSpan (narrowTotArr resp) = some sp → dec sp = some l →
      generateBranches dec resp B = l.take B) ∧
    (0 < B → (∀ sp l, dec sp = some l → l ≠ []) →
      ∀ t ∈ (buildForest texts dec B D [q] k).1, goodTree D t) := by
  refine ⟨?_, ?_, ?_, ?_⟩
  · intro h
    simp [generateBranches, h]
  · intro sp h hd
    simp [generateBranches, h, hd]
  · intro sp l h hd
    simp [generateBranches, h, hd]
  · intro hB hdec
    exact buildForest_good texts dec B hB hdec D [q] k

/-- Fixture provider for the C7 witness. -/
def cxTexts7 : Nat → List Char := fun _ => "[\"a\"]".data

/-- Fixture decoder for the C7 witness: every span decodes to the
one-element list `["a"]`. -/
def cxDec7 : ArrDecoder := fun _ => some [.str "a".data]

/-- Witness for the amended C7 theorem: with `B = 1`, `D = 1` and a
decoder always recovering one candidate, the built tree is well-branched. -/
theorem generate_branches_fallback_witness :
    goodTree 1 (RTree.node cxQ7 [RTree.node (JValue.str "a".data) []]) := by
  have h := (generate_branches_fallback_amended cxDec7 (cxTexts7 0) 1
    cxTexts7 1 cxQ7 0).2.2.2 (by omega)
    (fun sp l hl => by
      injection hl with h2
      rw [← h2]
      simp)
  have hm : RTree.node cxQ7 [RTree.node (JValue.str "a".data) []] ∈
      (buildForest cxTexts7 cxDec7 1 1 [cxQ7] 0).1 := by
    have he : (buildForest cxTexts7 cxDec7 1 1 [cxQ7] 0).1 =
        [RTree.node cxQ7 [RTree.node (JValue.str "a".data) []]] := rfl
    rw [he]
    exact List.mem_singleton.mpr rfl
  exact h _ hm

/-!
### C8 — Evaluation score defaulting
-/

/-- Non-numeric-score response fixture for C8. -/
def cxResp8 : List Char := "\x7b\"score\": \"high\", \"evaluation\": \"ok\"\x7d".data

/-- Decoder fixture for C8: `json.loads` on that span yields a dict whose
score is the string `"high"`. -/
def cxDec8 : ObjDecoder := fun s =>
  if s = cxResp8 then
    some [(keyScore, .str "high".data), (keyEvaluation, .str "ok".data)]
  else none

/-- C8 counterexample: a scoring response that decodes but carries a
non-numeric score is not assigned the neutral default `5.0` — the
non-numeric value is stored as the path's score (and a later sort that
compares it with a float raises `TypeError`), so the claim fails at this
input. -/
theorem evaluate_path_nonnumeric_score_passthrough :
    evaluateSingle cxDec8 cxResp8 =
      (JValue.str "high".data, JValue.str "ok".data) ∧
    isNumJ (evaluateSingle cxDec8 cxResp8).1 = false := ⟨rfl, rfl⟩

/-- C8 (amended): the neutral default score `5.0` is assigned exactly when
span extraction fails, decoding fails, or the decoded object lacks a
`score` key; a decoded `score` value is stored unchanged, numeric or not.
In particular, when every decoded score value is numeric, every evaluated
path carries a numeric score. -/
theorem evaluate_path_default_score_amended (dec : ObjDecoder)
    (resp : List Char) :
    (extractObjSpan (narrowTotObj resp) = none →
      evaluateSingle dec resp = (.num 5, .str "Could not evaluate path".data)) ∧
    (∀ sp, extractObjSpan (narrowTotObj resp) = some sp → dec sp = none →
      evaluateSingle dec resp = (.num 5, .str "Could not evaluate path".data)) ∧
    (∀ sp o, extractObjSpan (narrowTotObj resp) = some sp → dec sp = some o →
      evaluateSingle dec resp =
        (jgetD o keyScore (.num 5),
         jgetD o keyEvaluation (.str "No evaluation".data))) ∧
    ((∀ sp o, dec sp = some o → ∀ v, jget o keyScore = some v → isNumJ v = true) →
      isNumJ (evaluateSingle dec resp).1 = true) := by
  refine ⟨?_, ?_, ?_, ?_⟩
  · intro h
    simp [evaluateSingle, h]
  · intro sp h hd
    simp [evaluateSingle, h, hd]
  · intro sp o h hd
    simp [evaluateSingle, h, hd]
  · intro hnum
    unfold evaluateSingle
    cases hsp : extractObjSpan (narrowTotObj resp) with
    | none => simp [hsp, isNumJ]
    | some sp =>
      simp only [hsp]
      cases hd : dec sp with
      | none => simp [hd, isNumJ]
      | some o =>
        simp only [hd]
        cases hv : jget o keyScore with
        | none => simp [jgetD, hv, isNumJ]
        | some v =>
          simp only [jgetD, hv, Option.getD_some]
          exact hnum sp o hd v hv

/-- Numeric-score response fixture for the C8 witness. -/
def cxResp8w : List Char := "\x7b\"score\": 7\x7d".data

/-- Decoder fixture for the C8 witness. -/
def cxDec8w : ObjDecoder := fun s =>
  if s = cxResp8w then some [(keyScore, .num 7)] else none

/-- Witness for the amended C8 theorem at concrete inputs. -/
theorem evaluate_path_default_score_witness :
    isNumJ (evaluateSingle cxDec8w cxResp8w).1 = true :=
  (evaluate_path_default_score_amended cxDec8w cxResp8w).2.2.2
    (fun sp o ho v hv => by
      unfold cxDec8w at ho
      split at ho
      · cases ho
        cases hv
        rfl
      · cases ho)

/-!
### C9 — Select-phase ordering and tie-break
-/

/-- Score-descending order of an evaluated-path list. -/
def sortedDesc (l : List EvalRec) : Prop :=
  List.Pairwise (fun a b => b.score ≤ a.score) l

theorem insertDesc_mem (x z : EvalRec) (l : List EvalRec) :
    z ∈ insertDesc x l ↔ z = x ∨ z ∈ l := by
  induction l with
  | nil => simp [insertDesc]
  | cons y ys ih =>
    simp only [insertDesc]
    split
    · simp [List.mem_cons]
    · simp only [List.mem_cons, ih]
      tauto

theorem insertDesc_sorted (x : EvalRec) (l : List EvalRec)
    (h : sortedDesc l) : sortedDesc (insertDesc x l) := by
  induction l with
  | nil => simp [insertDesc, sortedDesc]
  | cons y ys ih =>
    rcases List.pairwise_cons.mp h with ⟨hy, hys⟩
    simp only [insertDesc]
    split
    · next hle =>
      refine List.pairwise_cons.mpr ⟨?_, h⟩
      intro z hz
      rcases List.mem_cons.mp hz with rfl | hz2
      · exact hle
      · exact le_trans (hy z hz2) hle
    · next hgt =>
      refine List.pairwise_cons.mpr ⟨?_, ih hys⟩
      intro z hz
      rcases (insertDesc_mem x z ys).mp hz with rfl | hz2
      · exact le_of_lt (lt_of_not_le hgt)
      · exact hy z hz2

theorem sortPaths_sorted (l : List EvalRec) : sortedDesc (sortPaths l) := by
  induction l with
  | nil => simp [sortPaths, sortedDesc]
  | cons x xs ih => exact insertDesc_sorted x (sortPaths xs) ih

/-- The head of the stable descending sort is the earliest-constructed
record of maximal score. -/
theorem selectBest_aux : ∀ l : List EvalRec, l ≠ [] →
    ∃ b k, (sortPaths l).head? = some b ∧ l.get? k = some b ∧
      (∀ p ∈ l, p.score ≤ b.score) ∧
      (∀ m p, m < k → l.get? m = some p → p.score < b.score) := by
  intro l
  induction l with
  | nil => intro h; exact absurd rfl h
  | cons x xs ih =>
    intro _
    by_cases hxs : xs = []
    · subst hxs
      refine ⟨x, 0, ?_, rfl, ?_, ?_⟩
      · simp [sortPaths, insertDesc]
      · intro p hp
        rcases List.mem_cons.mp hp with rfl | hp2
        · exact le_refl _
        · simp at hp2
      · intro m p hm _; omega
    · obtain ⟨b2, k2, hh, hg, hmax, hmin⟩ := ih hxs
      rcases hsp : sortPaths xs with _ | ⟨b3, rest⟩
      · rw [hsp] at hh; cases hh
      · rw [hsp] at hh
        simp only [List.head?_cons, Option.some_inj] at hh
        rw [hh] at hsp
        simp only [sortPaths]
        rw [hsp]
        simp only [insertDesc]
        split
        · next hle =>
          refine ⟨x, 0, by simp, rfl, ?_, ?_⟩
          · intro p hp
            rcases List.mem_cons.mp hp with rfl | hp2
            · exact le_refl _
            · exact le_trans (hmax p hp2) hle
          · intro m p hm _; omega
        · next hgt =>
          refine ⟨b2, k2 + 1, by simp, by simpa using hg, ?_, ?_⟩
          · intro p hp
            rcases List.mem_cons.mp hp with rfl | hp2
            · exact le_of_lt (lt_of_not_le hgt)
            · exact hmax p hp2
          · intro m p hm hgm
            cases m with
            | zero =>
              simp only [List.get?_cons_zero, Option.some_inj] at hgm
              subst hgm
              exact lt_of_not_le hgt
            | succ m2 =>
              simp only [List.get?_cons_succ] at hgm
              exact hmin m2 p (by omega) hgm

/-- C9: for every non-empty list of evaluated paths, the sorted list is in
score-descending order, and the selected path (`evaluated_paths[0]`) is a
path of maximal score; among equally scored paths the earliest-constructed
one is selected: the selected path occurs at an index all of whose earlier
indices carry strictly smaller scores. -/
theorem select_best_path_spec (l : List EvalRec) (hne : l ≠ []) :
    sortedDesc (sortPaths l) ∧
    ∃ b k, selectBestPath l = some b ∧ l.get? k = some b ∧
      (∀ p ∈ l, p.score ≤ b.score) ∧
      (∀ m p, m < k → l.get? m = some p → p.score < b.score) := by
  refine ⟨sortPaths_sorted l, ?_⟩
  obtain ⟨b, k, hh, hg, hmax, hmin⟩ := selectBest_aux l hne
  exact ⟨b, k, hh, hg, hmax, hmin⟩

/-- The §8 ranking scenario: leaf scores 3.0, 9.5 and 7.0 in construction
order. -/
def cxPaths9 : List EvalRec :=
  [⟨"p1".data, 3, []⟩, ⟨"p2".data, (19 : ℚ)/2, []⟩, ⟨"p3".data, 7, []⟩]

/-- Witness for C9 on the §8 scenario: the 9.5 path is selected. -/
theorem select_best_path_witness :
    cxPaths9 ≠ [] ∧ sortedDesc (sortPaths cxPaths9) ∧
    selectBestPath cxPaths9 = some ⟨"p2".data, (19 : ℚ)/2, []⟩ := by
  have h := select_best_path_spec cxPaths9 (by simp [cxPaths9])
  refine ⟨by simp [cxPaths9], h.1, ?_⟩
  norm_num [selectBestPath, sortPaths, insertDesc, cxPaths9]

/-!
### C1, C3, C5 — Iterative-strategy run properties
-/

/-- A generation call either yields text or fails with the generation
fault. -/
theorem genCall_cases (prov : Provider) (st : RSt) :
    (∃ t st1, genCall prov st = .ok (t, st1)) ∨
      genCall prov st = .error .generation := by
  unfold genCall
  cases prov st.idx
  · right; rfl
  · left; exact ⟨_, _, rfl⟩

/-- A generation call fails only with the generation fault. -/
theorem genCall_error (prov : Provider) (st : RSt) (f : Fault)
    (h : genCall prov st = .error f) : f = .generation := by
  unfold genCall at h
  cases hp : prov st.idx <;> simp only [hp] at h
  · exact (Except.error.inj h).symm
  · exact absurd h (by simp)

/-- The synthesis step fails only with the generation fault. -/
theorem reactFinal_error (prov : Provider) (st : RSt) (f : Fault)
    (h : reactFinal prov st = .error f) : f = .generation := by
  unfold reactFinal at h
  rcases genCall_cases prov st with ⟨t, st1, hg⟩ | hg <;> simp only [hg] at h
  · exact absurd h (by simp)
  · exact (Except.error.inj h).symm

/-- The loop of the iterative strategy fails only with the generation
fault: `_execute_action` absorbs every capability fault and
`_decide_action` absorbs every parse failure. -/
theorem reactLoop_error_generation (prov : Provider) (dec : ObjDecoder)
    (reg : Registry) (query : List Char) :
    ∀ (n : Nat) (st : RSt) (f : Fault),
      reactLoop prov dec reg query n st = .error f → f = .generation := by
  intro n
  induction n with
  | zero =>
    intro st f h
    exact reactFinal_error prov st f h
  | succ n ih =>
    intro st f h
    simp only [reactLoop] at h
    split at h
    · next x heq =>
      have hx := genCall_error _ _ _ heq
      have hf := Except.error.inj h
      rw [← hf, hx]
    · next t st1 heq =>
      split at h
      · exact reactFinal_error prov _ f h
      · split at h
        · next x heq2 =>
          have hx := genCall_error _ _ _ heq2
          have hf := Except.error.inj h
          rw [← hf, hx]
        · next dtext st3 heq2 =>
          split at h
          · exact reactFinal_error prov _ f h
          · exact ih _ f h

/-- C1 (amended): a run of the iterative strategy raises only on a
GenerationFault; every capability fault and every parse failure is
absorbed into reasoning/observation text.  (The upfront-chain strategy
does not share this property — see the counterexample.) -/
theorem react_run_raises_only_on_generation_fault (prov : Provider)
    (dec : ObjDecoder) (reg : Registry) (query : List Char) (N : Nat)
    (f : Fault) (h : reactRun prov dec reg query N = .error f) :
    f = .generation :=
  reactLoop_error_generation prov dec reg query N {} f h

/-- An always-failing provider fixture. -/
def cxProvFail : Provider := fun _ => .error ()

/-- Witness for C1's amended theorem: a run that fails does so with the
generation fault. -/
theorem react_run_fault_witness :
    reactRun cxProvFail (fun _ => none) [] "q".data 0 =
      .error Fault.generation ∧ Fault.generation = Fault.generation :=
  ⟨rfl, react_run_raises_only_on_generation_fault cxProvFail (fun _ => none)
    [] "q".data 0 .generation rfl⟩

/-- The decision text of the C1 counterexample run. -/
def cxDecision1 : List Char :=
  "\x7b\"needs_tool\": true, \"tool_name\": \"ghost\"\x7d".data

/-- Provider fixture for the C1 counterexample: a chain response then a
decision naming an unregistered capability. -/
def cxTexts1 : Nat → List Char := fun k =>
  if k = 0 then "Step 1: think".data else cxDecision1

/-- Decoder fixture for the C1 counterexample (what `json.loads` yields on
the decision span). -/
def cxDec1 : ObjDecoder := fun s =>
  if s = cxDecision1 then
    some [(keyNeedsTool, .bool true), (keyToolName, .str "ghost".data)]
  else none

/-- C1 counterexample: the upfront-chain strategy's run propagates a
capability fault — deciding for an unregistered capability name makes
`run` raise the registry's `KeyError` instead of returning an answer, so
"every capability fault is absorbed" fails for that strategy. -/
theorem cot_run_propagates_capability_fault :
    (cotRun (pureProv cxTexts1) cxDec1 [] "q".data 3).1 =
      .error (.capability (keyError (toolNotFoundMsg (.str "ghost".data)))) := rfl

/-!
### C3 — Bounded iterations and generation calls
-/

/-- With a provider that returns texts, the loop returns an answer within
`2n + 1` further generation calls and `n` further iterations. -/
theorem reactLoop_pure_bound (texts : Nat → List Char) (dec : ObjDecoder)
    (reg : Registry) (query : List Char) :
    ∀ (n : Nat) (st : RSt), ∃ a st2,
      reactLoop (pureProv texts) dec reg query n st = .ok (a, st2) ∧
      st2.idx ≤ st.idx + 2 * n + 1 ∧ st2.iters ≤ st.iters + n := by
  intro n
  induction n with
  | zero =>
    intro st
    refine ⟨_, _, rfl, ?_, ?_⟩ <;> (dsimp only; omega)
  | succ n ih =>
    intro st
    simp only [reactLoop, genCall, pureProv]
    split
    · refine ⟨_, _, rfl, ?_, ?_⟩ <;> (dsimp only; omega)
    · cases hda : decideAction dec (texts (st.idx + 1)) with
      | none =>
        simp only [hda]
        refine ⟨_, _, rfl, ?_, ?_⟩ <;> (dsimp only; omega)
      | some action =>
        simp only [hda]
        obtain ⟨a, st2, heq, h1, h2⟩ := ih _
        refine ⟨a, st2, heq, ?_, ?_⟩
        · dsimp only at h1
          omega
        · dsimp only at h2
          omega

/-- C3: for every step bound `N` and every sequence of provider texts, the
iterative strategy's run terminates with an answer after at most `N`
iterations, making at most `2N + 1` generation calls (one thought and at
most one decision per iteration, plus one synthesis). -/
theorem react_run_bounded_generation_calls (texts : Nat → List Char)
    (dec : ObjDecoder) (reg : Registry) (query : List Char) (N : Nat) :
    ∃ a st, reactRun (pureProv texts) dec reg query N = .ok (a, st) ∧
      st.idx ≤ 2 * N + 1 ∧ st.iters ≤ N := by
  obtain ⟨a, st, h, h1, h2⟩ := reactLoop_pure_bound texts dec reg query N {}
  refine ⟨a, st, h, ?_, ?_⟩
  · dsimp only at h1
    omega
  · dsimp only at h2
    omega

/-!
### C5 — No-span decision texts
-/

/-- C5: for every decoder, a decision-point text with no recoverable
brace span deterministically parses to "no action wanted" (and the parse
cannot raise — it is a total function); consequently, when every provider
text lacks a brace span, the iterative run performs no Registry invocation
and still returns the (stripped) text of its synthesis call. -/
theorem no_brace_span_decision_yields_no_action :
    (∀ (dec : ObjDecoder) (resp : List Char), NoSpan resp →
      decideAction dec resp = none) ∧
    (∀ (texts : Nat → List Char) (dec : ObjDecoder) (reg : Registry)
      (query : List Char) (N : Nat), (∀ k, NoSpan (texts k)) →
      ∃ j st, reactRun (pureProv texts) dec reg query N =
        .ok (stripWs (texts j), st) ∧ st.invocations = 0) := by
  constructor
  · exact decideAction_noSpan
  · intro texts dec reg query N hns
    cases N with
    | zero => exact ⟨0, _, rfl, rfl⟩
    | succ n =>
      simp only [reactRun, reactLoop, genCall, pureProv]
      split
      · exact ⟨1, _, rfl, rfl⟩
      · rw [decideAction_noSpan dec (texts (0 + 1)) (hns (0 + 1))]
        exact ⟨2, _, rfl, rfl⟩

/-- All-prose provider fixture for the C5 witness. -/
def cxTexts5 : Nat → List Char := fun _ => "no recoverable span here".data

/-- Witness for C5 at concrete inputs: with every provider text free of
brace spans, the run makes no Registry invocation and returns the
synthesis text. -/
theorem no_brace_span_witness :
    (∀ k : Nat, NoSpan (cxTexts5 k)) ∧
    (∃ j st, reactRun (pureProv cxTexts5) (fun _ => none) [] "q".data 3 =
      .ok (stripWs (cxTexts5 j), st) ∧ st.invocations = 0) :=
  ⟨fun _ => rfl,
   no_brace_span_decision_yields_no_action.2 cxTexts5 (fun _ => none) []
     "q".data 3 (fun _ => rfl)⟩

/-!
### C10 — Upfront-chain linearity
-/

/-- `CoTAgent._execute_action` makes at most one `execute_tool` call. -/
theorem cotExecuteAction_inv_le (reg : Registry) (action : JObj) :
    (cotExecuteAction reg action).2 ≤ 1 := by
  unfold cotExecuteAction
  repeat' split
  all_goals (dsimp only; omega)

set_option linter.unreachableTactic false in
set_option linter.unusedTactic false in
/-- C10 (amended): for every query and every sequence of provider texts,
the upfront-chain strategy performs exactly one chain generation and
exactly one decision, makes at most one capability invocation, and never
re-enters the chain or decision stages; when the run completes it performs
exactly one synthesis for exactly 3 generation calls, and when it raises
(a capability fault, the only possibility with a text-returning provider)
it aborts after 2 generation calls with no synthesis. -/
theorem cot_run_linear_amended (texts : Nat → List Char) (dec : ObjDecoder)
    (reg : Registry) (query : List Char) (K : Nat) :
    (cotRun (pureProv texts) dec reg query K).2.chainCalls = 1 ∧
    (cotRun (pureProv texts) dec reg query K).2.decideCalls = 1 ∧
    (cotRun (pureProv texts) dec reg query K).2.invocations ≤ 1 ∧
    (cotRun (pureProv texts) dec reg query K).2.synthCalls ≤ 1 ∧
    (cotRun (pureProv texts) dec reg query K).2.genCalls ≤ 3 ∧
    (∀ a, (cotRun (pureProv texts) dec reg query K).1 = .ok a →
      (cotRun (pureProv texts) dec reg query K).2.synthCalls = 1 ∧
      (cotRun (pureProv texts) dec reg query K).2.genCalls = 3) ∧
    (∀ f, (cotRun (pureProv texts) dec reg query K).1 = .error f →
      (∃ e, f = .capability e) ∧
      (cotRun (pureProv texts) dec reg query K).2.synthCalls = 0 ∧
      (cotRun (pureProv texts) dec reg query K).2.genCalls = 2) := by
  unfold cotRun pureProv
  dsimp only
  cases hda : decideAction dec (texts 1) with
  | none =>
    simp only [hda]
    refine ⟨by first | trivial | omega, by first | trivial | omega,
      by first | trivial | omega, by first | trivial | omega,
      by first | trivial | omega, ?_, ?_⟩
    · intro a _
      exact ⟨by first | trivial | omega, by first | trivial | omega⟩
    · intro f h
      exact absurd h (by simp)
  | some action =>
    rcases hex : cotExecuteAction reg action with ⟨res, inv⟩
    have hinv : inv ≤ 1 := by
      have h := cotExecuteAction_inv_le reg action
      rw [hex] at h
      exact h
    cases res with
    | error e =>
      simp only [hda, hex]
      refine ⟨by first | trivial | omega, by first | trivial | omega,
        by first | trivial | omega, by first | trivial | omega,
        by first | trivial | omega, ?_, ?_⟩
      · intro a h
        exact absurd h (by simp)
      · intro f h
        have hf := Except.error.inj h
        exact ⟨⟨e, hf.symm⟩, by first | trivial | omega,
          by first | trivial | omega⟩
    | ok obs =>
      simp only [hda, hex]
      refine ⟨by first | trivial | omega, by first | trivial | omega,
        by first | trivial | omega, by first | trivial | omega,
        by first | trivial | omega, ?_, ?_⟩
      · intro a _
        exact ⟨by first | trivial | omega, by first | trivial | omega⟩
      · intro f h
        exact absurd h (by simp)

/-- The decision text of the C10 counterexample run. -/
def cxDecision10 : List Char :=
  "\x7b\"needs_tool\": true, \"tool_name\": \"mystery\"\x7d".data

/-- Provider fixture for the C10 counterexample. -/
def cxTexts10 : Nat → List Char := fun k =>
  if k = 0 then "Step 1: plan".data else cxDecision10

/-- Decoder fixture for the C10 counterexample. -/
def cxDec10 : ObjDecoder := fun s =>
  if s = cxDecision10 then
    some [(keyNeedsTool, .bool true), (keyToolName, .str "mystery".data)]
  else none

/-- C10 counterexample: when the single decision names an unregistered
capability, the upfront-chain run aborts during its action step — it
performs one chain generation and one decision but zero syntheses (2
generation calls, not the claimed structure ending in one synthesis). -/
theorem cot_run_aborts_before_synthesis :
    (cotRun (pureProv cxTexts10) cxDec10 [] "q".data 2).2 =
      { genCalls := 2, chainCalls := 1, decideCalls := 1, invocations := 1,
        synthCalls := 0 } ∧
    (cotRun (pureProv cxTexts10) cxDec10 [] "q".data 2).1 =
      .error (.capability (keyError (toolNotFoundMsg (.str "mystery".data)))) :=
  ⟨rfl, rfl⟩

/-- No-action provider fixture for the C10 witness. -/
def cxTexts10w : Nat → List Char := fun _ => "no tool needed".data

/-- Witness for the amended C10 theorem at concrete inputs: a completing
run makes exactly 3 generation calls with one synthesis. -/
theorem cot_run_linear_witness :
    (cotRun (pureProv cxTexts10w) (fun _ => none) [] "q".data 3).1 =
      .ok (stripWs (cxTexts10w 2)) ∧
    (cotRun (pureProv cxTexts10w) (fun _ => none) [] "q".data 3).2.synthCalls = 1 ∧
    (cotRun (pureProv cxTexts10w) (fun _ => none) [] "q".data 3).2.genCalls = 3 :=
  ⟨rfl,
   ((cot_run_linear_amended cxTexts10w (fun _ => none) [] "q".data 3).2.2.2.2.2.1
     (stripWs (cxTexts10w 2)) rfl).1,
   ((cot_run_linear_amended cxTexts10w (fun _ => none) [] "q".data 3).2.2.2.2.2.1
     (stripWs (cxTexts10w 2)) rfl).2⟩

end TheAgent
